import Mathlib

/-!
Verification development for the chrome-llm-starter extension's background
pipeline (`src/background.ts`): content extraction, prompt building,
provider dispatch and response normalization.

Strings are modelled as `List Char`.  JavaScript string primitives used by
the source (`split(/\s+/)`, `join(' ')`, `trim()`, `replace(/\s+/g,' ')`,
`replace(/\n{3,}/g,'\n\n')`, `JSON.parse`) are given executable models
below; the repository's own functions are then direct translations.
-/

abbrev Str := List Char

/-- Convert a Lean string literal to the `List Char` representation. -/
def strL (s : String) : Str := s.data

/-- Whitespace class used by the source's regexes (`\s`) and `trim()`.
The common ASCII whitespace characters are modelled. -/
def isWs (c : Char) : Bool :=
  c = ' ' || c = '\t' || c = '\n' || c = '\r' || c = '\x0b' || c = '\x0c'

/-- One-pass worker for JavaScript `str.split(/\s+/)`.
`prevWs` records whether the previous character was part of a whitespace
run (so that a run emits a single boundary); `acc` is the current token,
reversed. -/
def splitWsGo : Bool → Str → Str → List Str
  | _, acc, [] => [acc.reverse]
  | prevWs, acc, c :: cs =>
    if isWs c then
      if prevWs then splitWsGo true acc cs
      else acc.reverse :: splitWsGo true [] cs
    else splitWsGo false (c :: acc) cs

/-- Model of JavaScript `s.split(/\s+/)`: maximal whitespace runs separate
tokens; a leading or trailing run contributes an empty token, and the empty
string yields `[""]`, exactly as in JavaScript. -/
def jsSplitWs (s : Str) : List Str := splitWsGo false [] s

/-- Model of JavaScript `tokens.join(' ')`. -/
def joinSp : List Str → Str
  | [] => []
  | [t] => t
  | t :: u :: ts => t ++ ' ' :: joinSp (u :: ts)

/-- Model of JavaScript `s.trim()`. -/
def jsTrim (s : Str) : Str :=
  ((s.dropWhile isWs).reverse.dropWhile isWs).reverse

/-- One-pass worker for `s.replace(/\s+/g, ' ')`:
`prevWs` records whether we are inside a whitespace run. -/
def collapseWsGo : Bool → Str → Str
  | _, [] => []
  | prevWs, c :: cs =>
    if isWs c then
      if prevWs then collapseWsGo true cs
      else ' ' :: collapseWsGo true cs
    else c :: collapseWsGo false cs

/-- Model of JavaScript `s.replace(/\s+/g, ' ')`. -/
def collapseWs (s : Str) : Str := collapseWsGo false s

/-- Replacement text for one maximal newline run of length `k` under
`replace(/\n{3,}/g, '\n\n')`. -/
def emitNl (k : Nat) : Str :=
  if 3 ≤ k then ['\n', '\n'] else List.replicate k '\n'

/-- One-pass worker for `s.replace(/\n{3,}/g, '\n\n')`: `k` counts the
newlines of the run currently being read. -/
def limitNlGo : Nat → Str → Str
  | k, [] => emitNl k
  | k, c :: cs =>
    if c = '\n' then limitNlGo (k + 1) cs
    else emitNl k ++ c :: limitNlGo 0 cs

/-- Model of JavaScript `s.replace(/\n{3,}/g, '\n\n')`. -/
def limitNewlineRuns (s : Str) : Str := limitNlGo 0 s

/-- Number of maximal non-whitespace runs in a string — the natural notion
of "how many words a string contains".  `inWord` records whether the
previous character was part of a word. -/
def wordRunsGo : Bool → Str → Nat
  | _, [] => 0
  | inWord, c :: cs =>
    if isWs c then wordRunsGo false cs
    else (if inWord then 0 else 1) + wordRunsGo true cs

/-- Number of words (maximal non-whitespace runs) of a string. -/
def wordRuns (s : Str) : Nat := wordRunsGo false s

/-- Decimal representation of a `Nat`, as interpolated by a JavaScript
template literal. -/
def natToStr (n : Nat) : Str := (Nat.repr n).data

/-!
DOM model.  A document is a tree of element and text nodes; the attributes
the source's selectors consult (`tag`, `id`, `class`, `role`) are carried
on each element.  `Node` and `NodeList` are a mutual pair so that all tree
functions are structurally recursive (and hence evaluate by `decide`).
-/

mutual

inductive Node where
  | text (s : Str)
  | elem (tag id className role : Str) (children : NodeList)

inductive NodeList where
  | nil
  | cons (n : Node) (rest : NodeList)

end

/-- CSS selectors used by `extractPageContent`: tag selectors (`main`),
attribute equality (`[role="main"]`), class selectors (`.content`),
id selectors (`#content`), and attribute substring selectors
(`[class*="comment"]`, `[id*="comment"]`). -/
inductive Selector where
  | tagName (t : Str)
  | roleIs (r : Str)
  | classToken (c : Str)
  | idIs (i : Str)
  | classContains (s : Str)
  | idContains (s : Str)

/-- Class-attribute tokens: the class attribute split on whitespace, empty
tokens dropped (DOM `classList` semantics for `.c` selectors). -/
def classTokens (className : Str) : List Str :=
  (jsSplitWs className).filter (fun t => !t.isEmpty)

/-- Whether `p` occurs at the start of `s`. -/
def strStarts : Str → Str → Bool
  | _, [] => true
  | [], _ :: _ => false
  | c :: cs, d :: ds => c == d && strStarts cs ds

/-- Substring test (JavaScript `includes` / CSS `[attr*=v]`), executable. -/
def strContains : Str → Str → Bool
  | hay, needle =>
    strStarts hay needle ||
      match hay with
      | [] => false
      | _ :: t => strContains t needle

/-- Whether an element with the given attributes matches a selector.
Text nodes never match. -/
def attrsMatch (tag id className role : Str) : Selector → Bool
  | Selector.tagName t => tag == t
  | Selector.roleIs r => role == r
  | Selector.classToken c => (classTokens className).contains c
  | Selector.idIs i => id == i
  | Selector.classContains s => strContains className s
  | Selector.idContains s => strContains id s

def nodeMatches : Node → Selector → Bool
  | Node.text _, _ => false
  | Node.elem tag id cls role _, sel => attrsMatch tag id cls role sel

mutual

/-- `document.querySelector(sel)` on the (sub)tree rooted at `n`:
first match in document (pre-)order. -/
def qselNode : Node → Selector → Option Node
  | Node.text _, _ => none
  | Node.elem tag id cls role cs, sel =>
    if attrsMatch tag id cls role sel then some (Node.elem tag id cls role cs)
    else qselNodes cs sel

def qselNodes : NodeList → Selector → Option Node
  | NodeList.nil, _ => none
  | NodeList.cons n rest, sel =>
    match qselNode n sel with
    | some x => some x
    | none => qselNodes rest sel

end

mutual

/-- `element.textContent`: concatenation of all text-node data in order. -/
def textContentNode : Node → Str
  | Node.text s => s
  | Node.elem _ _ _ _ cs => textContentNodes cs

def textContentNodes : NodeList → Str
  | NodeList.nil => []
  | NodeList.cons n rest => textContentNode n ++ textContentNodes rest

end

/-- Noise selectors removed from a candidate clone:
`script, style, nav, header, footer, aside, .advertisement, .ads,
.sidebar, .menu, .navigation, [class*="comment"], [id*="comment"]`. -/
def noiseSelectors : List Selector :=
  [Selector.tagName (strL "script"), Selector.tagName (strL "style"),
   Selector.tagName (strL "nav"), Selector.tagName (strL "header"),
   Selector.tagName (strL "footer"), Selector.tagName (strL "aside"),
   Selector.classToken (strL "advertisement"), Selector.classToken (strL "ads"),
   Selector.classToken (strL "sidebar"), Selector.classToken (strL "menu"),
   Selector.classToken (strL "navigation"),
   Selector.classContains (strL "comment"), Selector.idContains (strL "comment")]

def isNoise (n : Node) : Bool := noiseSelectors.any (nodeMatches n)

mutual

/-- Effect of `clone.querySelectorAll(noise).forEach(el => el.remove())`
on the children of the clone: every descendant element matching a noise
selector is removed with its subtree (`querySelectorAll` on an element
does not match the element itself, so the root is kept). -/
def stripChildren : NodeList → NodeList
  | NodeList.nil => NodeList.nil
  | NodeList.cons (Node.text s) rest =>
    NodeList.cons (Node.text s) (stripChildren rest)
  | NodeList.cons (Node.elem tag id cls role cs) rest =>
    if isNoise (Node.elem tag id cls role cs) then stripChildren rest
    else NodeList.cons (Node.elem tag id cls role (stripChildren cs)) (stripChildren rest)

end

def stripNoise : Node → Node
  | Node.text s => Node.text s
  | Node.elem tag id cls role cs => Node.elem tag id cls role (stripChildren cs)

/-- The `contentSources` priority list of `extractPageContent`. -/
def contentSources : List Selector :=
  [Selector.tagName (strL "main"), Selector.roleIs (strL "main"),
   Selector.tagName (strL "article"), Selector.classToken (strL "content"),
   Selector.idIs (strL "content"), Selector.classToken (strL "post-content"),
   Selector.classToken (strL "entry-content"),
   Selector.classToken (strL "article-content"), Selector.tagName (strL "body")]

/-- The stripped, trimmed text a selector would contribute for document
`doc` (the body of the `if (element)` branch of the loop). -/
def candText (doc : Node) (sel : Selector) : Option Str :=
  (qselNode doc sel).map (fun e => jsTrim (textContentNode (stripNoise e)))

/-- The selector loop of `extractPageContent`: keep the longest trimmed
candidate text seen so far, break once the kept text exceeds 500
characters. -/
def extractLoop (doc : Node) : List Selector → Str → Str
  | [], best => best
  | sel :: rest, best =>
    match candText doc sel with
    | none => extractLoop doc rest best
    | some t =>
      let best2 := if best.length < t.length then t else best
      if 500 < best2.length then best2 else extractLoop doc rest best2

/-- The final clean-up of `extractPageContent`:
`.replace(/\s+/g,' ').replace(/\n{3,}/g,'\n\n').trim()`. -/
def cleanContent (best : Str) : Str :=
  jsTrim (limitNewlineRuns (collapseWs best))

/-- Model of `extractPageContent` (src/background.ts:106-164).  The
selectors are constant and valid, so neither `try` block can throw; the
function is total by construction. -/
def extractPageContent (doc : Node) : Str :=
  cleanContent (extractLoop doc contentSources [])

/-!
JSON values and a model of JavaScript `JSON.parse`.  Numbers are kept
exact as `mantissa * 10 ^ exponent` (no float rounding); the claims under
verification never inspect numeric values beyond zero-testing.
-/

inductive Json where
  | null
  | bool (b : Bool)
  | num (mantissa : Int) (exponent : Int)
  | str (s : Str)
  | arr (elems : List Json)
  | obj (fields : List (Str × Json))

/-- Value of a hexadecimal digit. -/
def hexVal (c : Char) : Option Nat :=
  if '0' ≤ c && c ≤ '9' then some (c.toNat - 48)
  else if 'a' ≤ c && c ≤ 'f' then some (c.toNat - 87)
  else if 'A' ≤ c && c ≤ 'F' then some (c.toNat - 55)
  else none

/-- Single-character JSON string escapes. -/
def escChar : Char → Option Char
  | '"' => some '"'
  | '\\' => some '\\'
  | '/' => some '/'
  | 'b' => some '\x08'
  | 'f' => some '\x0c'
  | 'n' => some '\n'
  | 'r' => some '\r'
  | 't' => some '\t'
  | _ => none

/-- Parse the body of a JSON string (after the opening quote), returning
the decoded characters and the remaining input.  Unescaped control
characters are rejected, as by `JSON.parse`. -/
def parseStringBody : Str → Option (Str × Str)
  | [] => none
  | '"' :: rest => some ([], rest)
  | '\\' :: 'u' :: h1 :: h2 :: h3 :: h4 :: rest =>
    match hexVal h1, hexVal h2, hexVal h3, hexVal h4 with
    | some a, some b, some c, some d =>
      (parseStringBody rest).map
        (fun p => (Char.ofNat (((a * 16 + b) * 16 + c) * 16 + d) :: p.1, p.2))
    | _, _, _, _ => none
  | '\\' :: e :: rest =>
    match escChar e with
    | some c => (parseStringBody rest).map (fun p => (c :: p.1, p.2))
    | none => none
  | c :: rest =>
    if c.toNat < 32 then none
    else (parseStringBody rest).map (fun p => (c :: p.1, p.2))

def isDigit (c : Char) : Bool := '0' ≤ c && c ≤ '9'

def digitsToNat (ds : Str) : Nat := ds.foldl (fun acc c => acc * 10 + (c.toNat - 48)) 0

/-- Build the exact numeric value `± (intD ++ fd) * 10 ^ (e - |fd|)`. -/
def mkNum (neg : Bool) (intD fd : Str) (e : Int) : Json :=
  let m : Int := Int.ofNat (digitsToNat (intD ++ fd))
  Json.num (if neg then -m else m) (e - Int.ofNat fd.length)

/-- Parse an exponent after `e`/`E`. -/
def parseExpPart (s : Str) : Option (Int × Str) :=
  let p := match s with
    | '+' :: t => ((1 : Int), t)
    | '-' :: t => ((-1 : Int), t)
    | _ => ((1 : Int), s)
  let ds := p.2.takeWhile isDigit
  if ds.isEmpty then none
  else some (p.1 * Int.ofNat (digitsToNat ds), p.2.dropWhile isDigit)

/-- Parse a fraction after `.` (at least one digit required). -/
def parseFracPart (s : Str) : Option (Str × Str) :=
  let ds := s.takeWhile isDigit
  if ds.isEmpty then none else some (ds, s.dropWhile isDigit)

/-- Parse the optional exponent and finish the number. -/
def parseExpTail (neg : Bool) (intD fd : Str) (s3 : Str) : Option (Json × Str) :=
  match s3 with
  | 'e' :: u => (parseExpPart u).map (fun p => (mkNum neg intD fd p.1, p.2))
  | 'E' :: u => (parseExpPart u).map (fun p => (mkNum neg intD fd p.1, p.2))
  | _ => some (mkNum neg intD fd 0, s3)

/-- Parse a JSON number (sign, integer part without leading zeros,
optional fraction, optional exponent). -/
def parseNumber (s : Str) : Option (Json × Str) :=
  let p := match s with
    | '-' :: t => (true, t)
    | _ => (false, s)
  let intD := p.2.takeWhile isDigit
  let s2 := p.2.dropWhile isDigit
  if intD.isEmpty then none
  else if 1 < intD.length && intD.head? == some '0' then none
  else
    match s2 with
    | '.' :: t =>
      match parseFracPart t with
      | none => none
      | some q => parseExpTail p.1 intD q.1 q.2
    | _ => parseExpTail p.1 intD [] s2

/-- JSON insignificant whitespace. -/
def skipJsonWs (s : Str) : Str :=
  s.dropWhile (fun c => c = ' ' || c = '\t' || c = '\n' || c = '\r')

mutual

/-- Fuel-indexed JSON value parser (recursive descent). -/
def parseValue : Nat → Str → Option (Json × Str)
  | 0, _ => none
  | Nat.succ fuel, s =>
    match skipJsonWs s with
    | 'n' :: 'u' :: 'l' :: 'l' :: rest => some (Json.null, rest)
    | 't' :: 'r' :: 'u' :: 'e' :: rest => some (Json.bool true, rest)
    | 'f' :: 'a' :: 'l' :: 's' :: 'e' :: rest => some (Json.bool false, rest)
    | '"' :: rest => (parseStringBody rest).map (fun p => (Json.str p.1, p.2))
    | '[' :: rest =>
      match skipJsonWs rest with
      | ']' :: rest2 => some (Json.arr [], rest2)
      | s2 => (parseElems fuel s2).map (fun p => (Json.arr p.1, p.2))
    | '\x7b' :: rest =>
      match skipJsonWs rest with
      | '\x7d' :: rest2 => some (Json.obj [], rest2)
      | s2 => (parseMembers fuel s2).map (fun p => (Json.obj p.1, p.2))
    | s1 => parseNumber s1

/-- Parse `value (',' value)* ']'` inside an array. -/
def parseElems : Nat → Str → Option (List Json × Str)
  | 0, _ => none
  | Nat.succ fuel, s =>
    match parseValue fuel s with
    | none => none
    | some (v, rest) =>
      match skipJsonWs rest with
      | ',' :: rest2 => (parseElems fuel rest2).map (fun p => (v :: p.1, p.2))
      | ']' :: rest2 => some ([v], rest2)
      | _ => none

/-- Parse `string ':' value (',' member)* '\x7d'` inside an object. -/
def parseMembers : Nat → Str → Option (List (Str × Json) × Str)
  | 0, _ => none
  | Nat.succ fuel, s =>
    match skipJsonWs s with
    | '"' :: rest =>
      match parseStringBody rest with
      | none => none
      | some (key, rest2) =>
        match skipJsonWs rest2 with
        | ':' :: rest3 =>
          match parseValue fuel rest3 with
          | none => none
          | some (v, rest4) =>
            match skipJsonWs rest4 with
            | ',' :: rest5 => (parseMembers fuel rest5).map (fun p => ((key, v) :: p.1, p.2))
            | '\x7d' :: rest5 => some ([(key, v)], rest5)
            | _ => none
        | _ => none
    | _ => none

end

/-- Model of JavaScript `JSON.parse`: `some` on a complete JSON document,
`none` where `JSON.parse` would throw.  The fuel `s.length + 1` is ample:
every recursive descent consumes at least one input character. -/
def jsonParse (s : Str) : Option Json :=
  match parseValue (s.length + 1) s with
  | some (j, rest) => if (skipJsonWs rest).isEmpty then some j else none
  | none => none

/-- JavaScript truthiness of a JSON-parsed value (no `undefined` here;
that is represented as `Option.none` by callers).  A number is falsy
exactly when it is zero. -/
def jsTruthy : Json → Bool
  | Json.null => false
  | Json.bool b => b
  | Json.num m _ => m != 0
  | Json.str s => !s.isEmpty
  | Json.arr _ => true
  | Json.obj _ => true

/-- JavaScript property lookup on an object built by `JSON.parse`:
a later duplicate key overwrites an earlier one. -/
def getField (fields : List (Str × Json)) (k : Str) : Option Json :=
  match fields with
  | [] => none
  | (k2, v) :: rest =>
    match getField rest k with
    | some v2 => some v2
    | none => if k2 == k then some v else none

/-- JavaScript `a || b` on a possibly-undefined value. -/
def jsOr (v : Option Json) (d : Json) : Json :=
  match v with
  | some j => if jsTruthy j then j else d
  | none => d

/-!
Provider settings, dispatch and response normalization
(`generateSummaryViaFetch`, src/background.ts:166-361) and the message
handler (`handleSummarizePage`, src/background.ts:15-84).
-/

structure ProviderSettings where
  apiKey : Str
  model : Str

structure LLMSettings where
  currentProvider : Str
  anthropic : ProviderSettings
  openai : ProviderSettings
  google : ProviderSettings
  xai : ProviderSettings

/-- JavaScript `settings.providers[settings.currentProvider]`: the
`providers` object has exactly the four provider keys, so any other
`currentProvider` (including the empty string) yields `undefined`. -/
def lookupProvider (s : LLMSettings) : Option ProviderSettings :=
  if s.currentProvider == strL "anthropic" then some s.anthropic
  else if s.currentProvider == strL "openai" then some s.openai
  else if s.currentProvider == strL "google" then some s.google
  else if s.currentProvider == strL "xai" then some s.xai
  else none

/-- The HTTP exchange observed by one `fetch` call: response status,
status text, and the model text extracted from the response body
(`data.content[0].text`, `data.choices[0].message.content`, or
`data.candidates[0].content.parts[0].text` depending on provider). -/
structure HttpResponse where
  status : Nat
  statusText : Str
  bodyText : Str

/-- `Response.ok` of the Fetch API: status in the range 200-299. -/
def respOk (r : HttpResponse) : Bool := 200 ≤ r.status && r.status < 300

/-- The fixed prompt template of `generateSummaryViaFetch`, split around
the two interpolation points (`${title}` and `${truncatedContent}`). -/
def promptHead : Str :=
  strL "Please analyze the following web page content and provide a comprehensive summary.\n\nTitle: "

def promptMid : Str := strL "\n\nContent:\n"

def promptTail : Str :=
  strL "\n\nPlease provide your response in the following JSON format:\n\x7b\n  \"summary\": \"A clear, concise summary of the main points and key information from this page (2-3 sentences)\",\n  \"sentiment\": \"overall sentiment of the content (positive, negative, neutral, or mixed)\",\n  \"keyThemes\": [\"array\", \"of\", \"key\", \"themes\", \"or\", \"topics\"]\n\x7d\n\nFocus on the main ideas, key facts, and important takeaways. Keep the summary informative but brief."

def buildPrompt (title truncatedContent : Str) : Str :=
  promptHead ++ title ++ promptMid ++ truncatedContent ++ promptTail

/-- Endpoint URL per provider; the Google URL interpolates the model name
and the API key. -/
def endpointFor (providerKey : Str) (p : ProviderSettings) : Str :=
  if providerKey == strL "anthropic" then strL "https://api.anthropic.com/v1/messages"
  else if providerKey == strL "openai" then strL "https://api.openai.com/v1/chat/completions"
  else if providerKey == strL "google" then
    strL "https://generativelanguage.googleapis.com/v1beta/models/" ++ p.model
      ++ strL ":generateContent?key=" ++ p.apiKey
  else if providerKey == strL "xai" then strL "https://api.x.ai/v1/chat/completions"
  else []

/-- The outbound HTTP request built by a provider branch (url and prompt;
auth headers and body shape are provider plumbing outside the claims). -/
structure FetchRequest where
  url : Str
  prompt : Str

/-- The error text thrown on a non-ok response:
`` `<Label> API error: ${status} ${statusText}` ``. -/
def apiErrorMsg (label : Str) (r : HttpResponse) : Str :=
  label ++ strL " API error: " ++ natToStr r.status ++ (' ' :: r.statusText)

/-- The `\x7b...parsed, wordCount\x7d` / catch fallback block shared verbatim by
all four provider branches: try `JSON.parse` on the model text; on
success spread the parsed value (only an object contributes the three
fields; spreading any other value contributes none); on failure fall back
to the raw text with defaulted sentiment and themes. -/
structure NormResult where
  summary : Option Json
  sentiment : Option Json
  keyThemes : Option Json
  wordCount : Nat

def normalizeResponse (text : Str) (wordCount : Nat) : NormResult :=
  match jsonParse text with
  | some (Json.obj fields) =>
    { summary := getField fields (strL "summary")
      sentiment := getField fields (strL "sentiment")
      keyThemes := getField fields (strL "keyThemes")
      wordCount := wordCount }
  | some _ =>
    { summary := none, sentiment := none, keyThemes := none, wordCount := wordCount }
  | none =>
    { summary := some (Json.str text)
      sentiment := some (Json.str (strL "neutral"))
      keyThemes := some (Json.arr [])
      wordCount := wordCount }

/-- Result of one call to `generateSummaryViaFetch`: the request built
(none when the provider is unsupported and no fetch happens), the
returned value or thrown error, and the number of HTTP calls issued. -/
structure DispatchResult where
  request : Option FetchRequest
  outcome : Except Str NormResult
  fetchCount : Nat

/-- One provider branch of `generateSummaryViaFetch`: issue the single
fetch; on a non-ok response throw the labelled error; otherwise normalize
the response text.  The four branches of the source are identical up to
label, endpoint and auth plumbing. -/
def providerBranch (label : Str) (req : FetchRequest) (resp : HttpResponse)
    (wordCount : Nat) : DispatchResult :=
  if respOk resp then
    { request := some req
      outcome := Except.ok (normalizeResponse resp.bodyText wordCount)
      fetchCount := 1 }
  else
    { request := some req
      outcome := Except.error (apiErrorMsg label resp)
      fetchCount := 1 }

/-- Model of `generateSummaryViaFetch` (src/background.ts:166-361).
The single HTTP exchange is abstracted by the `resp` oracle. -/
def generateSummaryViaFetch (content title : Str) (settings : LLMSettings)
    (resp : HttpResponse) : DispatchResult :=
  let words := jsSplitWs content
  let truncatedContent := joinSp (words.take 3000)
  let wordCount := words.length
  let prompt := buildPrompt title truncatedContent
  if settings.currentProvider == strL "anthropic" then
    providerBranch (strL "Anthropic")
      { url := endpointFor settings.currentProvider settings.anthropic, prompt := prompt }
      resp wordCount
  else if settings.currentProvider == strL "openai" then
    providerBranch (strL "OpenAI")
      { url := endpointFor settings.currentProvider settings.openai, prompt := prompt }
      resp wordCount
  else if settings.currentProvider == strL "google" then
    providerBranch (strL "Google")
      { url := endpointFor settings.currentProvider settings.google, prompt := prompt }
      resp wordCount
  else if settings.currentProvider == strL "xai" then
    providerBranch (strL "xAI")
      { url := endpointFor settings.currentProvider settings.xai, prompt := prompt }
      resp wordCount
  else
    { request := none, outcome := Except.error (strL "Unsupported provider"), fetchCount := 0 }

/-- The summary object built by `handleSummarizePage` on success
(src/background.ts:61-72).  `summary` keeps the possibly-undefined JS
value; `sentiment` and `keyThemes` go through `|| default`. -/
structure Summary where
  id : Str
  url : Str
  title : Str
  summary : Option Json
  sentiment : Json
  keyThemes : Json
  commentCount : Nat
  processingTime : Nat

def mkSummary (id url title : Str) (processingTime : Nat) (r : NormResult) : Summary :=
  { id := id, url := url, title := title
    summary := r.summary
    sentiment := jsOr r.sentiment (Json.str (strL "neutral"))
    keyThemes := jsOr r.keyThemes (Json.arr [])
    commentCount := if r.wordCount = 0 then 0 else r.wordCount
    processingTime := processingTime }

/-- What `handleSummarizePage` passes to `sendResponse`. -/
inductive HandlerResponse where
  | failure (error : Str)
  | success (s : Summary)

/-- Model of `handleSummarizePage` (src/background.ts:15-84).
`pageContent` is the result of `getPageContent` (`none` for `null`; the
empty string is also falsy under `!pageContent`); `stored` is the
`llmSettings` storage record; `resp` is the oracle for the one HTTP
exchange; `id`/`processingTime` abstract `crypto.randomUUID()` and the
elapsed time.  The second component counts HTTP calls issued. -/
def handleSummarizePage (pageContent : Option Str) (stored : Option LLMSettings)
    (resp : HttpResponse) (id url title : Str) (processingTime : Nat) :
    HandlerResponse × Nat :=
  match pageContent with
  | none => (HandlerResponse.failure (strL "Could not extract page content"), 0)
  | some content =>
    if content.isEmpty then
      (HandlerResponse.failure (strL "Could not extract page content"), 0)
    else
      match stored with
      | none => (HandlerResponse.failure (strL "LLM settings not configured"), 0)
      | some settings =>
        match lookupProvider settings with
        | none => (HandlerResponse.failure (strL "API key not configured"), 0)
        | some cp =>
          if cp.apiKey.isEmpty then
            (HandlerResponse.failure (strL "API key not configured"), 0)
          else
            let d := generateSummaryViaFetch content title settings resp
            match d.outcome with
            | Except.ok r =>
              (HandlerResponse.success (mkSummary id url title processingTime r), d.fetchCount)
            | Except.error e => (HandlerResponse.failure e, d.fetchCount)

/-!
Specification-side definitions for the extractor claims: the list of
candidate texts in selector priority order, the prefix of candidates the
loop actually considers (it stops after the first candidate that pushes
the kept text over 500 characters), and the longest-text fold.
-/

/-- All candidate texts of the document, in selector priority order. -/
def candTexts (doc : Node) : List Str := contentSources.filterMap (candText doc)

/-- Keep the longer of the kept text and a new candidate (first wins
ties), as the loop's `if (textContent.trim().length > bestContent.length)`. -/
def keepLonger (b t : Str) : Str := if b.length < t.length then t else b

/-- The selector loop expressed on the candidate texts alone. -/
def loopTexts : List Str → Str → Str
  | [], best => best
  | t :: ts, best =>
    let b2 := keepLonger best t
    if 500 < b2.length then b2 else loopTexts ts b2

/-- The prefix of candidates the loop examines before stopping. -/
def consideredTexts : List Str → Str → List Str
  | [], _ => []
  | t :: ts, best =>
    let b2 := keepLonger best t
    if 500 < b2.length then [t] else t :: consideredTexts ts b2

/-- The candidates `extractPageContent` examines for `doc`. -/
def considered (doc : Node) : List Str := consideredTexts (candTexts doc) []

/-- Longest string of a list (first wins ties), starting from `best`. -/
def bestOf (best : Str) (ts : List Str) : Str := ts.foldl keepLonger best

/-- Whether none of the eight main-content selectors (everything before
the final `body` fallback) matches anything in the document. -/
def noMainContent (doc : Node) : Bool :=
  (contentSources.take 8).all (fun sel => (qselNode doc sel).isNone)

/-- No API key is configured for the current provider: either no settings
record is stored, or the current provider is not one of the four known
keys, or its stored key is the empty string (falsy). -/
def noApiKeyConfigured (stored : Option LLMSettings) : Bool :=
  match stored with
  | none => true
  | some settings =>
    match lookupProvider settings with
    | none => true
    | some cp => cp.apiKey.isEmpty

/-!
Concrete instances used by witnesses and counterexamples.
-/

/-- A model response that is valid JSON with all three expected fields,
but whose sentiment value is the (falsy) empty string. -/
def c1Input : Str :=
  strL "\x7b\"summary\":\"s\",\"sentiment\":\"\",\"keyThemes\":[\"a\"]\x7d"

/-- The fields `JSON.parse` yields on `c1Input`. -/
def c1Fields : List (Str × Json) :=
  [(strL "summary", Json.str (strL "s")),
   (strL "sentiment", Json.str []),
   (strL "keyThemes", Json.arr [Json.str (strL "a")])]

/-- A document with an empty body: no selector yields any text. -/
def c6Doc : Node :=
  Node.elem (strL "html") [] [] []
    (NodeList.cons (Node.elem (strL "body") [] [] [] NodeList.nil) NodeList.nil)

/-- The body of a document that contains only a nav and a footer. -/
def c9Body (navKids footKids : NodeList) : Node :=
  Node.elem (strL "body") [] [] []
    (NodeList.cons (Node.elem (strL "nav") [] [] [] navKids)
      (NodeList.cons (Node.elem (strL "footer") [] [] [] footKids) NodeList.nil))

/-- A document whose body contains only a nav and a footer element. -/
def c9Doc (navKids footKids : NodeList) : Node :=
  Node.elem (strL "html") [] [] []
    (NodeList.cons (c9Body navKids footKids) NodeList.nil)

def c9NavKids : NodeList := NodeList.cons (Node.text (strL "home links")) NodeList.nil

def c9FootKids : NodeList := NodeList.cons (Node.text (strL "copyright 2020")) NodeList.nil

/-- Settings with an Anthropic key configured. -/
def demoSettings : LLMSettings :=
  { currentProvider := strL "anthropic"
    anthropic := { apiKey := strL "sk-key", model := strL "claude-3-5-sonnet-20241022" }
    openai := { apiKey := [], model := strL "gpt-4o" }
    google := { apiKey := [], model := strL "gemini-2.5-flash" }
    xai := { apiKey := [], model := strL "grok-2-1212" } }

/-- Settings whose current provider has an empty (falsy) API key. -/
def noKeySettings : LLMSettings :=
  { currentProvider := strL "anthropic"
    anthropic := { apiKey := [], model := strL "claude-3-5-sonnet-20241022" }
    openai := { apiKey := [], model := strL "gpt-4o" }
    google := { apiKey := [], model := strL "gemini-2.5-flash" }
    xai := { apiKey := [], model := strL "grok-2-1212" } }

/-- A successful HTTP exchange whose model text is not JSON. -/
def okResp : HttpResponse :=
  { status := 200, statusText := strL "OK", bodyText := strL "not json" }

/-- A failed HTTP exchange (404 Not Found). -/
def notFoundResp : HttpResponse :=
  { status := 404, statusText := strL "Not Found", bodyText := [] }

/-- The summary object produced by the concrete successful run used as
the C10 witness. -/
def c10Result : Summary := mkSummary [] [] [] 0 (normalizeResponse (strL "not json") 1)

/-!
Sanity checks that the string and JSON models reproduce the JavaScript
behaviour at the edge cases that matter for the claims.
-/

/-- Leading and trailing whitespace runs yield empty tokens, as in
JavaScript `" a ".split(/\s+/)`. -/
theorem jsSplitWs_edge_tokens :
    jsSplitWs (strL " a ") = [[], strL "a", []] ∧ jsSplitWs [] = [[]] := by decide

/-- A fully-worked extraction over a small document: the nav subtree is
stripped, whitespace is collapsed, the result is trimmed. -/
theorem extractPageContent_sample :
    extractPageContent
      (Node.elem (strL "html") [] [] []
        (NodeList.cons
          (Node.elem (strL "body") [] [] []
            (NodeList.cons (Node.text (strL "  hello \n world "))
              (NodeList.cons
                (Node.elem (strL "nav") [] [] []
                  (NodeList.cons (Node.text (strL "menu items")) NodeList.nil))
                NodeList.nil)))
          NodeList.nil))
      = strL "hello world" := by decide

/-- The JSON model accepts any top-level value, follows the later of
duplicate keys, decodes escapes, keeps numbers exact, and rejects
non-JSON text and leading zeros, as `JSON.parse` does. -/
theorem jsonParse_sanity :
    jsonParse (strL "\x7b\"a\": 1\x7d") = some (Json.obj [(strL "a", Json.num 1 0)]) ∧
    jsonParse (strL "[true, null]") = some (Json.arr [Json.bool true, Json.null]) ∧
    jsonParse (strL "\"h\\ni\"") = some (Json.str ['h', '\n', 'i']) ∧
    jsonParse (strL "-12.5e3") = some (Json.num (-125) 2) ∧
    jsonParse (strL "hello there") = none ∧
    jsonParse (strL "01") = none ∧
    getField [(strL "a", Json.null), (strL "a", Json.bool true)] (strL "a")
      = some (Json.bool true) :=
  ⟨rfl, rfl, rfl, rfl, rfl, rfl, rfl⟩

/-!
Lemmas about word splitting and word counting.
-/

/-- Every character of every token produced by `splitWsGo` is
non-whitespace, provided the accumulator holds only such characters. -/
theorem splitWsGo_tokens (s : Str) : ∀ b acc, (∀ c ∈ acc, isWs c = false) →
    ∀ t ∈ splitWsGo b acc s, ∀ c ∈ t, isWs c = false := by
  induction s with
  | nil =>
    intro b acc hacc t ht c hc
    simp only [splitWsGo, List.mem_singleton] at ht
    subst ht
    exact hacc c (List.mem_reverse.mp hc)
  | cons d ds ih =>
    intro b acc hacc t ht c hc
    by_cases hd : isWs d
    · cases b with
      | true =>
        simp only [splitWsGo, hd, if_true] at ht
        exact ih true acc hacc t ht c hc
      | false =>
        simp only [splitWsGo, hd, if_true] at ht
        rcases List.mem_cons.mp ht with h1 | h1
        · subst h1
          exact hacc c (List.mem_reverse.mp hc)
        · exact ih true [] (by intro x hx; cases hx) t h1 c hc
    · simp only [splitWsGo, hd, if_false] at ht
      refine ih false (d :: acc) ?_ t ht c hc
      intro x hx
      rcases List.mem_cons.mp hx with h1 | h1
      · subst h1; simpa using hd
      · exact hacc x h1

/-- Every token of `jsSplitWs s` consists of non-whitespace characters. -/
theorem jsSplitWs_tokens (s : Str) : ∀ t ∈ jsSplitWs s, ∀ c ∈ t, isWs c = false := by
  intro t ht
  exact splitWsGo_tokens s false [] (by intro c hc; cases hc) t ht

/-- State of the word-run counter after consuming `xs`. -/
def endSt (b : Bool) (xs : Str) : Bool := xs.foldl (fun _ c => !isWs c) b

theorem wordRunsGo_append (xs : Str) :
    ∀ b ys, wordRunsGo b (xs ++ ys) = wordRunsGo b xs + wordRunsGo (endSt b xs) ys := by
  induction xs with
  | nil => intro b ys; simp [wordRunsGo, endSt]
  | cons c cs ih =>
    intro b ys
    by_cases hc : isWs c
    · have hend : endSt b (c :: cs) = endSt false cs := by simp [endSt, hc]
      have e1 : wordRunsGo b ((c :: cs) ++ ys) = wordRunsGo false (cs ++ ys) := by
        simp [wordRunsGo, hc]
      have e2 : wordRunsGo b (c :: cs) = wordRunsGo false cs := by
        simp [wordRunsGo, hc]
      rw [e1, e2, hend, ih false ys]
    · have hend : endSt b (c :: cs) = endSt true cs := by simp [endSt, hc]
      have e1 : wordRunsGo b ((c :: cs) ++ ys) =
          (if b = true then 0 else 1) + wordRunsGo true (cs ++ ys) := by
        simp [wordRunsGo, hc]
      have e2 : wordRunsGo b (c :: cs) =
          (if b = true then 0 else 1) + wordRunsGo true cs := by
        simp [wordRunsGo, hc]
      rw [e1, e2, hend, ih true ys]
      omega

/-- Inside a word, an all-non-whitespace string contributes no new run. -/
theorem wordRunsGo_true_eq_zero (t : Str) (h : ∀ c ∈ t, isWs c = false) :
    wordRunsGo true t = 0 := by
  induction t with
  | nil => rfl
  | cons c cs ih =>
    have hc : isWs c = false := h c (List.mem_cons_self c cs)
    have := ih (by intro x hx; exact h x (List.mem_cons_of_mem c hx))
    simp [wordRunsGo, hc, this]

/-- An all-non-whitespace string holds at most one word run. -/
theorem wordRunsGo_le_one (t : Str) (h : ∀ c ∈ t, isWs c = false) :
    ∀ b, wordRunsGo b t ≤ 1 := by
  intro b
  cases t with
  | nil => simp [wordRunsGo]
  | cons c cs =>
    have hc : isWs c = false := h c (List.mem_cons_self c cs)
    have hcs : wordRunsGo true cs = 0 :=
      wordRunsGo_true_eq_zero cs (by intro x hx; exact h x (List.mem_cons_of_mem c hx))
    simp only [wordRunsGo, hc, if_false, Bool.false_eq_true, hcs]
    cases b <;> simp

/-- Joining at most `n` all-non-whitespace tokens with single spaces yields
at most `n` words. -/
theorem wordRunsGo_joinSp_le (ts : List Str) (h : ∀ t ∈ ts, ∀ c ∈ t, isWs c = false) :
    ∀ b, wordRunsGo b (joinSp ts) ≤ ts.length := by
  induction ts using joinSp.induct with
  | case1 => intro b; simp [joinSp, wordRunsGo]
  | case2 t =>
    intro b
    simpa [joinSp] using wordRunsGo_le_one t (h t (List.mem_singleton.mpr rfl)) b
  | case3 t u ts ih =>
    intro b
    have hrest : ∀ x ∈ u :: ts, ∀ c ∈ x, isWs c = false := by
      intro x hx; exact h x (List.mem_cons_of_mem t hx)
    have ht : ∀ c ∈ t, isWs c = false := h t (List.mem_cons_self t (u :: ts))
    have hjoin : joinSp (t :: u :: ts) = t ++ ' ' :: joinSp (u :: ts) := rfl
    rw [hjoin, wordRunsGo_append]
    have hsp : wordRunsGo (endSt b t) (' ' :: joinSp (u :: ts)) =
        wordRunsGo false (joinSp (u :: ts)) := by
      simp [wordRunsGo, isWs]
    rw [hsp]
    have h1 := wordRunsGo_le_one t ht b
    have h2 := ih hrest false
    simp only [List.length_cons] at h2 ⊢
    omega

/-- The truncated content interpolated into the prompt never holds more
than 3000 words. -/
theorem wordRuns_truncated_le (content : Str) :
    wordRuns (joinSp ((jsSplitWs content).take 3000)) ≤ 3000 := by
  have htok : ∀ t ∈ (jsSplitWs content).take 3000, ∀ c ∈ t, isWs c = false := by
    intro t ht
    exact jsSplitWs_tokens content t (List.mem_of_mem_take ht)
  have h1 := wordRunsGo_joinSp_le ((jsSplitWs content).take 3000) htok false
  have h2 : ((jsSplitWs content).take 3000).length ≤ 3000 := List.length_take_le 3000 _
  exact le_trans h1 h2

/-- `splitWsGo` never produces the empty token list. -/
theorem splitWsGo_ne_nil (s : Str) : ∀ b acc, splitWsGo b acc s ≠ [] := by
  induction s with
  | nil => intro b acc; simp [splitWsGo]
  | cons c cs ih =>
    intro b acc
    by_cases hc : isWs c
    · cases b with
      | true => simpa [splitWsGo, hc] using ih true acc
      | false => simp [splitWsGo, hc]
    · simpa [splitWsGo, hc] using ih false (c :: acc)

/-- `split` always yields at least one token (JavaScript `split` never
returns an empty array). -/
theorem jsSplitWs_length_pos (s : Str) : 1 ≤ (jsSplitWs s).length := by
  have := splitWsGo_ne_nil s false []
  cases h : splitWsGo false [] s with
  | nil => exact absurd h this
  | cons t ts => simp [jsSplitWs, h]

/-- Consuming an all-non-whitespace token extends the accumulator. -/
theorem splitWsGo_accum (t : Str) (h : ∀ c ∈ t, isWs c = false) :
    ∀ acc r, splitWsGo false acc (t ++ r) = splitWsGo false (t.reverse ++ acc) r := by
  induction t with
  | nil => intro acc r; simp
  | cons c cs ih =>
    intro acc r
    have hc : isWs c = false := h c (List.mem_cons_self c cs)
    have e1 : splitWsGo false acc ((c :: cs) ++ r) = splitWsGo false (c :: acc) (cs ++ r) := by
      simp [splitWsGo, hc]
    rw [e1, ih (by intro x hx; exact h x (List.mem_cons_of_mem c hx)) (c :: acc) r]
    simp

/-- After a separator, a leading non-whitespace character behaves the same
in separator state and in initial state. -/
theorem splitWsGo_sep_reset (l : Str)
    (h : l = [] ∨ ∃ c cs, l = c :: cs ∧ isWs c = false) :
    splitWsGo true [] l = splitWsGo false [] l := by
  rcases h with h | ⟨c, cs, rfl, hc⟩
  · subst h; rfl
  · simp [splitWsGo, hc]

/-- Splitting the space-joined list of nonempty all-non-whitespace tokens
recovers exactly those tokens. -/
theorem jsSplitWs_joinSp (ts : List Str) (hne : ts ≠ [])
    (h : ∀ t ∈ ts, t ≠ [] ∧ ∀ c ∈ t, isWs c = false) :
    jsSplitWs (joinSp ts) = ts := by
  induction ts using joinSp.induct with
  | case1 => exact absurd rfl hne
  | case2 t =>
    obtain ⟨ht1, ht2⟩ := h t (List.mem_singleton.mpr rfl)
    have : jsSplitWs (joinSp [t]) = splitWsGo false [] (t ++ []) := by
      simp [jsSplitWs, joinSp]
    rw [this, splitWsGo_accum t ht2]
    simp [splitWsGo]
  | case3 t u ts ih =>
    obtain ⟨ht1, ht2⟩ := h t (List.mem_cons_self t (u :: ts))
    have hrest : ∀ x ∈ u :: ts, x ≠ [] ∧ ∀ c ∈ x, isWs c = false := by
      intro x hx; exact h x (List.mem_cons_of_mem t hx)
    obtain ⟨hu1, hu2⟩ := hrest u (List.mem_cons_self u ts)
    have hjoin : joinSp (t :: u :: ts) = t ++ ' ' :: joinSp (u :: ts) := rfl
    have e1 : jsSplitWs (joinSp (t :: u :: ts)) =
        splitWsGo false t.reverse (' ' :: joinSp (u :: ts)) := by
      rw [jsSplitWs, hjoin, splitWsGo_accum t ht2]
      simp
    have e2 : splitWsGo false t.reverse (' ' :: joinSp (u :: ts)) =
        t :: splitWsGo true [] (joinSp (u :: ts)) := by
      simp [splitWsGo, isWs]
    have hhead : joinSp (u :: ts) = [] ∨
        ∃ c cs, joinSp (u :: ts) = c :: cs ∧ isWs c = false := by
      cases u with
      | nil => exact absurd rfl hu1
      | cons c cs =>
        right
        cases ts with
        | nil =>
          exact ⟨c, cs, rfl, hu2 c (List.mem_cons_self c cs)⟩
        | cons v vs =>
          refine ⟨c, cs ++ ' ' :: joinSp (v :: vs), ?_, hu2 c (List.mem_cons_self c cs)⟩
          rfl
    rw [e1, e2, splitWsGo_sep_reset _ hhead]
    have := ih (List.cons_ne_nil u ts) hrest
    rw [jsSplitWs] at this
    rw [this]

/-!
Lemmas about the extractor loop.
-/

/-- The selector loop depends only on the candidate texts, in order. -/
theorem extractLoop_eq_loopTexts (doc : Node) (sels : List Selector) :
    ∀ best, extractLoop doc sels best = loopTexts (sels.filterMap (candText doc)) best := by
  induction sels with
  | nil => intro best; rfl
  | cons sel rest ih =>
    intro best
    cases hc : candText doc sel with
    | none => simp [extractLoop, hc, List.filterMap_cons, ih]
    | some t =>
      simp only [extractLoop, hc, List.filterMap_cons, loopTexts, keepLonger]
      by_cases hlen : 500 < (if best.length < t.length then t else best).length
      · simp [hlen]
      · simp [hlen, ih]

/-- The loop with early exit computes the longest-text fold over exactly
the candidates it considers. -/
theorem loopTexts_eq_bestOf (ts : List Str) :
    ∀ best, loopTexts ts best = bestOf best (consideredTexts ts best) := by
  induction ts with
  | nil => intro best; rfl
  | cons t rest ih =>
    intro best
    by_cases hlen : 500 < (keepLonger best t).length
    · simp [loopTexts, consideredTexts, hlen, bestOf]
    · simp only [loopTexts, consideredTexts, hlen, if_false, bestOf, List.foldl_cons]
      exact ih (keepLonger best t)

/-- The fold only grows the kept text. -/
theorem length_le_bestOf (ts : List Str) : ∀ b, b.length ≤ (bestOf b ts).length := by
  induction ts with
  | nil => intro b; exact le_refl _
  | cons t rest ih =>
    intro b
    have h1 : b.length ≤ (keepLonger b t).length := by
      by_cases h : b.length < t.length <;> simp [keepLonger, h] <;> omega
    exact le_trans h1 (ih (keepLonger b t))

/-- Every list element is at most as long as the fold's result. -/
theorem mem_length_le_bestOf (ts : List Str) :
    ∀ b, ∀ t ∈ ts, t.length ≤ (bestOf b ts).length := by
  induction ts with
  | nil => intro b t ht; cases ht
  | cons t0 rest ih =>
    intro b t ht
    rcases List.mem_cons.mp ht with h | h
    · subst h
      have h1 : t.length ≤ (keepLonger b t).length := by
        by_cases h : b.length < t.length <;> simp [keepLonger, h] <;> omega
      calc t.length ≤ (keepLonger b t).length := h1
        _ ≤ (bestOf (keepLonger b t) rest).length := length_le_bestOf rest _
        _ = (bestOf b (t :: rest)).length := rfl
    · exact ih (keepLonger b t0) t h

/-- A loop fed only empty candidate texts keeps the empty string. -/
theorem loopTexts_all_empty (ts : List Str) (h : ∀ t ∈ ts, t = []) :
    loopTexts ts [] = [] := by
  induction ts with
  | nil => rfl
  | cons t rest ih =>
    have ht : t = [] := h t (List.mem_cons_self t rest)
    subst ht
    simp only [loopTexts, keepLonger]
    have : ∀ x ∈ rest, x = ([] : Str) := by
      intro x hx; exact h x (List.mem_cons_of_mem [] hx)
    simpa [loopTexts, keepLonger] using ih this

/-!
Lemmas about the dispatcher and normalizer.
-/

/-- The normalizer always records the word count it is given. -/
theorem normalizeResponse_wordCount (text : Str) (wc : Nat) :
    (normalizeResponse text wc).wordCount = wc := by
  unfold normalizeResponse
  cases h : jsonParse text with
  | none => rfl
  | some j => cases j <;> rfl

/-- A provider branch always issues exactly one fetch. -/
theorem providerBranch_fetchCount (label : Str) (req : FetchRequest)
    (resp : HttpResponse) (wc : Nat) :
    (providerBranch label req resp wc).fetchCount = 1 := by
  unfold providerBranch
  by_cases h : respOk resp = true <;> simp [h]

/-- A provider branch records the request it was built with. -/
theorem providerBranch_request (label : Str) (req : FetchRequest)
    (resp : HttpResponse) (wc : Nat) :
    (providerBranch label req resp wc).request = some req := by
  unfold providerBranch
  by_cases h : respOk resp = true <;> simp [h]

/-- On a successful dispatch, the returned record's word count is the
token count of the full (untruncated) content. -/
theorem generateSummaryViaFetch_ok_wordCount (content title : Str)
    (settings : LLMSettings) (resp : HttpResponse) (r : NormResult)
    (h : (generateSummaryViaFetch content title settings resp).outcome = Except.ok r) :
    r.wordCount = (jsSplitWs content).length := by
  unfold generateSummaryViaFetch at h
  by_cases h1 : (settings.currentProvider == strL "anthropic") = true <;>
    by_cases h2 : (settings.currentProvider == strL "openai") = true <;>
    by_cases h3 : (settings.currentProvider == strL "google") = true <;>
    by_cases h4 : (settings.currentProvider == strL "xai") = true <;>
    simp only [h1, h2, h3, h4, if_true, if_false, Bool.false_eq_true] at h <;>
    first
    | (unfold providerBranch at h
       by_cases hok : respOk resp = true <;> simp [hok] at h <;>
         rw [← h] <;> exact normalizeResponse_wordCount _ _)
    | simp at h

/-!
Claim theorems.
-/

/-- Claim C5: for every model-response string that does not parse as JSON,
the normalizer returns a result whose summary is the raw response text,
whose sentiment is "neutral", and whose theme list is empty. -/
theorem c5_parse_failure_fallback (text : Str) (wc : Nat)
    (h : jsonParse text = none) :
    (normalizeResponse text wc).summary = some (Json.str text) ∧
    (normalizeResponse text wc).sentiment = some (Json.str (strL "neutral")) ∧
    (normalizeResponse text wc).keyThemes = some (Json.arr []) := by
  unfold normalizeResponse
  rw [h]
  exact ⟨rfl, rfl, rfl⟩

/-- Witness for C5 at the concrete non-JSON response
"The page describes a recipe.". -/
theorem c5_parse_failure_fallback_witness :
    jsonParse (strL "The page describes a recipe.") = none ∧
    ((normalizeResponse (strL "The page describes a recipe.") 5).summary
        = some (Json.str (strL "The page describes a recipe.")) ∧
      (normalizeResponse (strL "The page describes a recipe.") 5).sentiment
        = some (Json.str (strL "neutral")) ∧
      (normalizeResponse (strL "The page describes a recipe.") 5).keyThemes
        = some (Json.arr [])) :=
  ⟨rfl, c5_parse_failure_fallback (strL "The page describes a recipe.") 5 rfl⟩

/-- Claim C8: when the model response parses as a JSON object, the parsed
fields are merged in without validation: a missing or falsy sentiment
defaults to "neutral", missing or falsy keyThemes default to the empty
list, and the summary field is passed through untouched (whatever its
presence or type), with no other validation. -/
theorem c8_merge_without_validation (text : Str) (fields : List (Str × Json))
    (wc : Nat) (id url title : Str) (pt : Nat)
    (h : jsonParse text = some (Json.obj fields)) :
    (mkSummary id url title pt (normalizeResponse text wc)).summary
        = getField fields (strL "summary") ∧
    (getField fields (strL "sentiment") = none →
      (mkSummary id url title pt (normalizeResponse text wc)).sentiment
        = Json.str (strL "neutral")) ∧
    (∀ v, getField fields (strL "sentiment") = some v → jsTruthy v = false →
      (mkSummary id url title pt (normalizeResponse text wc)).sentiment
        = Json.str (strL "neutral")) ∧
    (∀ v, getField fields (strL "sentiment") = some v → jsTruthy v = true →
      (mkSummary id url title pt (normalizeResponse text wc)).sentiment = v) ∧
    (getField fields (strL "keyThemes") = none →
      (mkSummary id url title pt (normalizeResponse text wc)).keyThemes
        = Json.arr []) ∧
    (∀ v, getField fields (strL "keyThemes") = some v → jsTruthy v = false →
      (mkSummary id url title pt (normalizeResponse text wc)).keyThemes
        = Json.arr []) ∧
    (∀ v, getField fields (strL "keyThemes") = some v → jsTruthy v = true →
      (mkSummary id url title pt (normalizeResponse text wc)).keyThemes = v) := by
  have hn : normalizeResponse text wc =
      { summary := getField fields (strL "summary")
        sentiment := getField fields (strL "sentiment")
        keyThemes := getField fields (strL "keyThemes")
        wordCount := wc } := by
    unfold normalizeResponse
    rw [h]
  refine ⟨?_, ?_, ?_, ?_, ?_, ?_, ?_⟩
  · rw [hn]; rfl
  · intro h0; rw [hn]; simp [mkSummary, jsOr, h0]
  · intro v hv hf; rw [hn]; simp [mkSummary, jsOr, hv, hf]
  · intro v hv ht; rw [hn]; simp [mkSummary, jsOr, hv, ht]
  · intro h0; rw [hn]; simp [mkSummary, jsOr, h0]
  · intro v hv hf; rw [hn]; simp [mkSummary, jsOr, hv, hf]
  · intro v hv ht; rw [hn]; simp [mkSummary, jsOr, hv, ht]

/-- Witness for C8 at the concrete object response missing the sentiment
and keyThemes fields and carrying a numeric summary. -/
theorem c8_merge_without_validation_witness :
    jsonParse (strL "\x7b\"summary\":42\x7d")
        = some (Json.obj [(strL "summary", Json.num 42 0)]) ∧
    (mkSummary [] [] [] 0 (normalizeResponse (strL "\x7b\"summary\":42\x7d") 2)).summary
        = some (Json.num 42 0) ∧
    (mkSummary [] [] [] 0 (normalizeResponse (strL "\x7b\"summary\":42\x7d") 2)).sentiment
        = Json.str (strL "neutral") ∧
    (mkSummary [] [] [] 0 (normalizeResponse (strL "\x7b\"summary\":42\x7d") 2)).keyThemes
        = Json.arr [] := by
  refine ⟨rfl, ?_, ?_, ?_⟩
  · exact (c8_merge_without_validation (strL "\x7b\"summary\":42\x7d")
      [(strL "summary", Json.num 42 0)] 2 [] [] [] 0 rfl).1
  · exact (c8_merge_without_validation (strL "\x7b\"summary\":42\x7d")
      [(strL "summary", Json.num 42 0)] 2 [] [] [] 0 rfl).2.1 rfl
  · exact (c8_merge_without_validation (strL "\x7b\"summary\":42\x7d")
      [(strL "summary", Json.num 42 0)] 2 [] [] [] 0 rfl).2.2.2.2.1 rfl

/-- Counterexample to claim C1 as stated: `c1Input` is valid JSON
containing all three expected fields, yet the resulting summary object
does not carry the sentiment value unmodified — the falsy empty-string
sentiment is replaced by "neutral" by the `|| 'neutral'` merge. -/
theorem c1_counterexample :
    (jsonParse c1Input = some (Json.obj c1Fields) ∧
      getField c1Fields (strL "summary") = some (Json.str (strL "s")) ∧
      getField c1Fields (strL "sentiment") = some (Json.str []) ∧
      getField c1Fields (strL "keyThemes") = some (Json.arr [Json.str (strL "a")])) ∧
    (mkSummary [] [] [] 0 (normalizeResponse c1Input 3)).sentiment ≠ Json.str [] := by
  refine ⟨⟨rfl, rfl, rfl, rfl⟩, ?_⟩
  have hval : (mkSummary [] [] [] 0 (normalizeResponse c1Input 3)).sentiment
      = Json.str (strL "neutral") := rfl
  rw [hval]
  intro heq
  injection heq with h2
  exact absurd h2 (by decide)

/-- Claim C1 (amended): for every model response that is valid JSON with
all three expected fields, the resulting summary object carries those
three values unmodified, provided the sentiment and keyThemes values are
truthy (a falsy sentiment is replaced by "neutral" and falsy keyThemes by
the empty list). -/
theorem c1_unmodified_when_truthy (text : Str) (fields : List (Str × Json))
    (wc : Nat) (id url title : Str) (pt : Nat)
    (h : jsonParse text = some (Json.obj fields))
    (sv tv kv : Json)
    (hs : getField fields (strL "summary") = some sv)
    (ht : getField fields (strL "sentiment") = some tv)
    (hk : getField fields (strL "keyThemes") = some kv)
    (htv : jsTruthy tv = true) (hkv : jsTruthy kv = true) :
    (mkSummary id url title pt (normalizeResponse text wc)).summary = some sv ∧
    (mkSummary id url title pt (normalizeResponse text wc)).sentiment = tv ∧
    (mkSummary id url title pt (normalizeResponse text wc)).keyThemes = kv := by
  have hn : normalizeResponse text wc =
      { summary := getField fields (strL "summary")
        sentiment := getField fields (strL "sentiment")
        keyThemes := getField fields (strL "keyThemes")
        wordCount := wc } := by
    unfold normalizeResponse
    rw [h]
  refine ⟨?_, ?_, ?_⟩
  · rw [hn]; simp [mkSummary, hs]
  · rw [hn]; simp [mkSummary, jsOr, ht, htv]
  · rw [hn]; simp [mkSummary, jsOr, hk, hkv]

/-- Witness for the amended C1 at a concrete response with truthy
sentiment and keyThemes values. -/
theorem c1_unmodified_when_truthy_witness :
    jsonParse (strL "\x7b\"summary\":\"s\",\"sentiment\":\"mixed\",\"keyThemes\":[\"a\"]\x7d")
        = some (Json.obj
            [(strL "summary", Json.str (strL "s")),
             (strL "sentiment", Json.str (strL "mixed")),
             (strL "keyThemes", Json.arr [Json.str (strL "a")])]) ∧
    ((mkSummary [] [] [] 0 (normalizeResponse
          (strL "\x7b\"summary\":\"s\",\"sentiment\":\"mixed\",\"keyThemes\":[\"a\"]\x7d") 3)).summary
        = some (Json.str (strL "s")) ∧
      (mkSummary [] [] [] 0 (normalizeResponse
          (strL "\x7b\"summary\":\"s\",\"sentiment\":\"mixed\",\"keyThemes\":[\"a\"]\x7d") 3)).sentiment
        = Json.str (strL "mixed") ∧
      (mkSummary [] [] [] 0 (normalizeResponse
          (strL "\x7b\"summary\":\"s\",\"sentiment\":\"mixed\",\"keyThemes\":[\"a\"]\x7d") 3)).keyThemes
        = Json.arr [Json.str (strL "a")]) :=
  ⟨rfl,
    c1_unmodified_when_truthy
      (strL "\x7b\"summary\":\"s\",\"sentiment\":\"mixed\",\"keyThemes\":[\"a\"]\x7d")
      [(strL "summary", Json.str (strL "s")),
       (strL "sentiment", Json.str (strL "mixed")),
       (strL "keyThemes", Json.arr [Json.str (strL "a")])]
      3 [] [] [] 0 rfl
      (Json.str (strL "s")) (Json.str (strL "mixed")) (Json.arr [Json.str (strL "a")])
      rfl rfl rfl rfl rfl⟩

/-- Claim C3: whenever the current provider has no API key configured
(no stored settings, unknown provider key, or empty key), the summarize
handler returns an error response, issues no HTTP call (the provider
dispatcher is never reached), and the reported error mentions
configuration. -/
theorem c3_no_key_no_dispatch (content : Str) (hc : content ≠ [])
    (stored : Option LLMSettings) (resp : HttpResponse)
    (id url title : Str) (pt : Nat)
    (hkey : noApiKeyConfigured stored = true) :
    ∃ msg, handleSummarizePage (some content) stored resp id url title pt
        = (HandlerResponse.failure msg, 0) ∧
      strContains msg (strL "configured") = true := by
  have hcE : content.isEmpty = false := by
    cases content with
    | nil => exact absurd rfl hc
    | cons c cs => rfl
  cases stored with
  | none =>
    refine ⟨strL "LLM settings not configured", ?_, by decide⟩
    simp [handleSummarizePage, hcE]
  | some settings =>
    cases hlp : lookupProvider settings with
    | none =>
      refine ⟨strL "API key not configured", ?_, by decide⟩
      simp [handleSummarizePage, hcE, hlp]
    | some cp =>
      have hempty : cp.apiKey.isEmpty = true := by
        simpa [noApiKeyConfigured, hlp] using hkey
      refine ⟨strL "API key not configured", ?_, by decide⟩
      simp [handleSummarizePage, hcE, hlp, hempty]

/-- Witness for C3 at a concrete state: settings stored, current provider
anthropic, empty API key. -/
theorem c3_no_key_no_dispatch_witness :
    (strL "page text" ≠ [] ∧ noApiKeyConfigured (some noKeySettings) = true) ∧
    ∃ msg, handleSummarizePage (some (strL "page text")) (some noKeySettings)
        okResp [] [] [] 0 = (HandlerResponse.failure msg, 0) ∧
      strContains msg (strL "configured") = true :=
  ⟨⟨by decide, by decide⟩,
    c3_no_key_no_dispatch (strL "page text") (by decide) (some noKeySettings)
      okResp [] [] [] 0 (by decide)⟩

/-- The status code appears in the provider error message. -/
theorem apiErrorMsg_status_infix (label : Str) (r : HttpResponse) :
    List.IsInfix (natToStr r.status) (apiErrorMsg label r) :=
  ⟨label ++ strL " API error: ", ' ' :: r.statusText, by simp [apiErrorMsg]⟩

/-- The status text appears in the provider error message. -/
theorem apiErrorMsg_statusText_infix (label : Str) (r : HttpResponse) :
    List.IsInfix r.statusText (apiErrorMsg label r) :=
  ⟨label ++ strL " API error: " ++ natToStr r.status ++ [' '], [], by simp [apiErrorMsg]⟩

/-- Claim C4: for every supported provider and every HTTP response with a
4xx/5xx status, the dispatcher throws a provider error whose message
contains the numeric status code and the status text, and issues exactly
one HTTP call (no retry). -/
theorem c4_http_error_surfaced (content title : Str) (settings : LLMSettings)
    (resp : HttpResponse)
    (hp : lookupProvider settings ≠ none)
    (hlo : 400 ≤ resp.status) (hhi : resp.status ≤ 599) :
    ∃ msg, (generateSummaryViaFetch content title settings resp).outcome
        = Except.error msg ∧
      (generateSummaryViaFetch content title settings resp).fetchCount = 1 ∧
      List.IsInfix (natToStr resp.status) msg ∧
      List.IsInfix resp.statusText msg := by
  have hok : respOk resp = false := by
    simp only [respOk, Bool.and_eq_false_iff]
    right
    simp only [decide_eq_false_iff_not]
    omega
  by_cases hA : (settings.currentProvider == strL "anthropic") = true
  · exact ⟨apiErrorMsg (strL "Anthropic") resp,
      by simp [generateSummaryViaFetch, hA, providerBranch, hok],
      by simp [generateSummaryViaFetch, hA, providerBranch, hok],
      apiErrorMsg_status_infix _ _, apiErrorMsg_statusText_infix _ _⟩
  · by_cases hO : (settings.currentProvider == strL "openai") = true
    · exact ⟨apiErrorMsg (strL "OpenAI") resp,
        by simp [generateSummaryViaFetch, hA, hO, providerBranch, hok],
        by simp [generateSummaryViaFetch, hA, hO, providerBranch, hok],
        apiErrorMsg_status_infix _ _, apiErrorMsg_statusText_infix _ _⟩
    · by_cases hG : (settings.currentProvider == strL "google") = true
      · exact ⟨apiErrorMsg (strL "Google") resp,
          by simp [generateSummaryViaFetch, hA, hO, hG, providerBranch, hok],
          by simp [generateSummaryViaFetch, hA, hO, hG, providerBranch, hok],
          apiErrorMsg_status_infix _ _, apiErrorMsg_statusText_infix _ _⟩
      · by_cases hX : (settings.currentProvider == strL "xai") = true
        · exact ⟨apiErrorMsg (strL "xAI") resp,
            by simp [generateSummaryViaFetch, hA, hO, hG, hX, providerBranch, hok],
            by simp [generateSummaryViaFetch, hA, hO, hG, hX, providerBranch, hok],
            apiErrorMsg_status_infix _ _, apiErrorMsg_statusText_infix _ _⟩
        · exfalso
          exact hp (by simp [lookupProvider, hA, hO, hG, hX])

/-- Witness for C4: a 404 Not Found response under the OpenAI provider. -/
theorem c4_http_error_surfaced_witness :
    (lookupProvider
        { currentProvider := strL "openai"
          anthropic := { apiKey := [], model := [] }
          openai := { apiKey := strL "sk", model := strL "gpt-4o" }
          google := { apiKey := [], model := [] }
          xai := { apiKey := [], model := [] } } ≠ none ∧
      400 ≤ notFoundResp.status ∧ notFoundResp.status ≤ 599) ∧
    ∃ msg, (generateSummaryViaFetch (strL "hello") (strL "t")
          { currentProvider := strL "openai"
            anthropic := { apiKey := [], model := [] }
            openai := { apiKey := strL "sk", model := strL "gpt-4o" }
            google := { apiKey := [], model := [] }
            xai := { apiKey := [], model := [] } }
          notFoundResp).outcome = Except.error msg ∧
      (generateSummaryViaFetch (strL "hello") (strL "t")
          { currentProvider := strL "openai"
            anthropic := { apiKey := [], model := [] }
            openai := { apiKey := strL "sk", model := strL "gpt-4o" }
            google := { apiKey := [], model := [] }
            xai := { apiKey := [], model := [] } }
          notFoundResp).fetchCount = 1 ∧
      List.IsInfix (natToStr notFoundResp.status) msg ∧
      List.IsInfix notFoundResp.statusText msg :=
  ⟨⟨by intro h; exact Option.noConfusion h, by decide, by decide⟩,
    c4_http_error_surfaced (strL "hello") (strL "t") _ notFoundResp
      (by intro h; exact Option.noConfusion h) (by decide) (by decide)⟩

/-- Claim C2: for every content string with at least one word, the
dispatcher builds its prompt from the fixed template with the content
truncated to the first 3000 split tokens, and the truncated content
embedded in the prompt never holds more than 3000 words. -/
theorem c2_prompt_truncation (content title : Str) (settings : LLMSettings)
    (resp : HttpResponse)
    (hw : 1 ≤ wordRuns content)
    (hp : lookupProvider settings ≠ none) :
    ∃ req, (generateSummaryViaFetch content title settings resp).request = some req ∧
      req.prompt = buildPrompt title (joinSp ((jsSplitWs content).take 3000)) ∧
      wordRuns (joinSp ((jsSplitWs content).take 3000)) ≤ 3000 := by
  by_cases hA : (settings.currentProvider == strL "anthropic") = true
  · refine ⟨⟨endpointFor settings.currentProvider settings.anthropic,
        buildPrompt title (joinSp ((jsSplitWs content).take 3000))⟩,
      ?_, rfl, wordRuns_truncated_le content⟩
    simp [generateSummaryViaFetch, hA, providerBranch_request]
  · by_cases hO : (settings.currentProvider == strL "openai") = true
    · refine ⟨⟨endpointFor settings.currentProvider settings.openai,
          buildPrompt title (joinSp ((jsSplitWs content).take 3000))⟩,
        ?_, rfl, wordRuns_truncated_le content⟩
      simp [generateSummaryViaFetch, hA, hO, providerBranch_request]
    · by_cases hG : (settings.currentProvider == strL "google") = true
      · refine ⟨⟨endpointFor settings.currentProvider settings.google,
            buildPrompt title (joinSp ((jsSplitWs content).take 3000))⟩,
          ?_, rfl, wordRuns_truncated_le content⟩
        simp [generateSummaryViaFetch, hA, hO, hG, providerBranch_request]
      · by_cases hX : (settings.currentProvider == strL "xai") = true
        · refine ⟨⟨endpointFor settings.currentProvider settings.xai,
              buildPrompt title (joinSp ((jsSplitWs content).take 3000))⟩,
            ?_, rfl, wordRuns_truncated_le content⟩
          simp [generateSummaryViaFetch, hA, hO, hG, hX, providerBranch_request]
        · exfalso
          exact hp (by simp [lookupProvider, hA, hO, hG, hX])

/-- Witness for C2 at the two-word content "hello world" under the
configured Anthropic provider. -/
theorem c2_prompt_truncation_witness :
    (1 ≤ wordRuns (strL "hello world") ∧ lookupProvider demoSettings ≠ none) ∧
    ∃ req, (generateSummaryViaFetch (strL "hello world") (strL "T") demoSettings
        okResp).request = some req ∧
      req.prompt = buildPrompt (strL "T")
        (joinSp ((jsSplitWs (strL "hello world")).take 3000)) ∧
      wordRuns (joinSp ((jsSplitWs (strL "hello world")).take 3000)) ≤ 3000 :=
  ⟨⟨by decide, by intro h; exact Option.noConfusion h⟩,
    c2_prompt_truncation (strL "hello world") (strL "T") demoSettings okResp
      (by decide) (by intro h; exact Option.noConfusion h)⟩

/-- Claim C10: on every successful run, the `commentCount` recorded in
the produced summary object equals the number of split tokens of the full
extracted content before truncation, and contents with more than 3000
tokens exist, so the recorded count can exceed 3000 even though the
prompt embeds at most 3000 words. -/
theorem c10_commentCount_full (content : Str) (stored : Option LLMSettings)
    (resp : HttpResponse) (id url title : Str) (pt : Nat) (s : Summary) (n : Nat)
    (h : handleSummarizePage (some content) stored resp id url title pt
        = (HandlerResponse.success s, n)) :
    s.commentCount = (jsSplitWs content).length ∧
    ∃ bigContent, 3000 < (jsSplitWs bigContent).length := by
  constructor
  · cases content with
    | nil => exfalso; simp [handleSummarizePage] at h
    | cons c cs =>
      cases stored with
      | none => exfalso; simp [handleSummarizePage] at h
      | some settings =>
        cases hlp : lookupProvider settings with
        | none => exfalso; simp [handleSummarizePage, hlp] at h
        | some cp =>
          by_cases hk : cp.apiKey.isEmpty = true
          · exfalso; simp [handleSummarizePage, hlp, hk] at h
          · simp only [handleSummarizePage, hlp, hk, List.isEmpty_cons,
              Bool.false_eq_true, if_false] at h
            cases hout : (generateSummaryViaFetch (c :: cs) title settings resp).outcome with
            | error e =>
              exfalso
              rw [hout] at h
              simp at h
            | ok r =>
              rw [hout] at h
              simp only [Prod.mk.injEq] at h
              have hs : HandlerResponse.success (mkSummary id url title pt r)
                  = HandlerResponse.success s := h.1
              have hs2 : mkSummary id url title pt r = s := by
                injection hs
              have hwc : r.wordCount = (jsSplitWs (c :: cs)).length :=
                generateSummaryViaFetch_ok_wordCount (c :: cs) title settings resp r hout
              have hpos : 1 ≤ (jsSplitWs (c :: cs)).length := jsSplitWs_length_pos (c :: cs)
              rw [← hs2]
              show (if r.wordCount = 0 then 0 else r.wordCount) = (jsSplitWs (c :: cs)).length
              rw [hwc, if_neg (by omega)]
  · refine ⟨joinSp (List.replicate 3001 (strL "a")), ?_⟩
    have hsplit : jsSplitWs (joinSp (List.replicate 3001 (strL "a")))
        = List.replicate 3001 (strL "a") := by
      refine jsSplitWs_joinSp _ ?_ ?_
      · intro hh
        have := congrArg List.length hh
        rw [List.length_replicate, List.length_nil] at this
        exact absurd this (by decide)
      · intro t ht
        have := List.eq_of_mem_replicate ht
        subst this
        exact ⟨by decide, by decide⟩
    rw [hsplit, List.length_replicate]
    omega

/-- Witness for C10 at a concrete successful run over the one-word
content "hello". -/
theorem c10_commentCount_full_witness :
    handleSummarizePage (some (strL "hello")) (some demoSettings) okResp [] [] [] 0
        = (HandlerResponse.success c10Result, 1) ∧
    c10Result.commentCount = (jsSplitWs (strL "hello")).length :=
  ⟨rfl,
    (c10_commentCount_full (strL "hello") (some demoSettings) okResp [] [] [] 0
      c10Result 1 rfl).1⟩

/-- Claim C7: for every document, the extractor walks the selectors in the
fixed priority order, keeps the longest noise-stripped trimmed text seen
so far, and stops as soon as the kept text exceeds 500 characters; the
returned text is the whitespace-normalized longest candidate among the
prefix of candidates examined before stopping. -/
theorem c7_longest_with_early_stop (doc : Node) :
    extractPageContent doc = cleanContent (bestOf [] (considered doc)) ∧
    ∀ t ∈ considered doc, t.length ≤ (bestOf [] (considered doc)).length := by
  constructor
  · unfold extractPageContent considered candTexts
    rw [extractLoop_eq_loopTexts, loopTexts_eq_bestOf]
  · intro t ht
    exact mem_length_le_bestOf (considered doc) [] t ht

/-- Witness for C7 at the concrete document `c6Doc`, whose single
considered candidate is the empty body text. -/
theorem c7_longest_with_early_stop_witness :
    extractPageContent c6Doc = cleanContent (bestOf [] (considered c6Doc)) ∧
    ([] ∈ considered c6Doc ∧
      ([] : Str).length ≤ (bestOf [] (considered c6Doc)).length) :=
  ⟨(c7_longest_with_early_stop c6Doc).1,
    by decide,
    (c7_longest_with_early_stop c6Doc).2 [] (by decide)⟩

/-- Claim C6: the extractor is total (it is a function into strings), and
when no candidate yields any text it returns the empty string. -/
theorem c6_total_failure_empty (doc : Node)
    (h : (candTexts doc).all List.isEmpty = true) :
    extractPageContent doc = [] := by
  have hall : ∀ t ∈ candTexts doc, t = [] := by
    intro t ht
    have h1 := List.all_eq_true.mp h t ht
    cases t with
    | nil => rfl
    | cons c cs => exact absurd h1 (by simp [List.isEmpty])
  unfold extractPageContent
  rw [extractLoop_eq_loopTexts]
  rw [show contentSources.filterMap (candText doc) = candTexts doc from rfl]
  rw [loopTexts_all_empty (candTexts doc) hall]
  rfl

/-- Witness for C6 at the concrete document with an empty body. -/
theorem c6_total_failure_empty_witness :
    (candTexts c6Doc).all List.isEmpty = true ∧ extractPageContent c6Doc = [] :=
  ⟨by decide, c6_total_failure_empty c6Doc (by decide)⟩

/-- Claim C9: for every document whose body holds only a nav and a footer
and no main content (none of the eight main-content selectors matches),
extraction falls back to the body candidate: the result is the
whitespace-normalized noise-stripped body text, here empty, and in
particular shorter than the 500-character early-stop threshold. -/
theorem c9_nav_footer_fallback (navKids footKids : NodeList)
    (h : noMainContent (c9Doc navKids footKids) = true) :
    extractPageContent (c9Doc navKids footKids)
        = cleanContent (jsTrim (textContentNode (stripNoise (c9Body navKids footKids)))) ∧
    extractPageContent (c9Doc navKids footKids) = [] ∧
    (extractPageContent (c9Doc navKids footKids)).length < 500 := by
  have hstrip : stripNoise (c9Body navKids footKids)
      = Node.elem (strL "body") [] [] [] NodeList.nil := rfl
  have ht : jsTrim (textContentNode (stripNoise (c9Body navKids footKids))) = [] := by
    rw [hstrip]; rfl
  simp only [noMainContent, contentSources, List.take, List.all_cons, List.all_nil,
    Bool.and_eq_true, and_true] at h
  obtain ⟨h1, h2, h3, h4, h5, h6, h7, h8⟩ := h
  rw [Option.isNone_iff_eq_none] at h1 h2 h3 h4 h5 h6 h7 h8
  have hbody : qselNode (c9Doc navKids footKids) (Selector.tagName (strL "body"))
      = some (c9Body navKids footKids) := rfl
  have hcand : candTexts (c9Doc navKids footKids)
      = [jsTrim (textContentNode (stripNoise (c9Body navKids footKids)))] := by
    simp [candTexts, contentSources, candText, List.filterMap_cons,
      h1, h2, h3, h4, h5, h6, h7, h8, hbody]
  have hfin : extractPageContent (c9Doc navKids footKids) = [] := by
    unfold extractPageContent
    rw [extractLoop_eq_loopTexts]
    rw [show contentSources.filterMap (candText (c9Doc navKids footKids))
        = candTexts (c9Doc navKids footKids) from rfl]
    rw [hcand, ht]
    rfl
  refine ⟨?_, hfin, ?_⟩
  · rw [hfin, ht]; rfl
  · rw [hfin]; decide

/-- Witness for C9 at a concrete nav/footer-only document with text
inside the nav and the footer. -/
theorem c9_nav_footer_fallback_witness :
    noMainContent (c9Doc c9NavKids c9FootKids) = true ∧
    (extractPageContent (c9Doc c9NavKids c9FootKids)
        = cleanContent (jsTrim (textContentNode (stripNoise (c9Body c9NavKids c9FootKids)))) ∧
      extractPageContent (c9Doc c9NavKids c9FootKids) = [] ∧
      (extractPageContent (c9Doc c9NavKids c9FootKids)).length < 500) :=
  ⟨by decide, c9_nav_footer_fallback c9NavKids c9FootKids (by decide)⟩
